import Mathlib

/-!
Shallow embedding of the two sample trading strategies of the `aat`
repository:

* `GoldenDeathStrategy` (src/aat/strategy/sample/iex/golden_death.py) —
  a moving-average crossover strategy with an arming state machine,
  warm-up suppression and a time-based bail.
* `SellPlusPercentStrategy` (src/aat/strategy/sample/sell_plus_percent.py) —
  a percent-band take-profit / stop-loss strategy keyed by instrument.

Python floats are modelled as rationals (`ℚ`); external collaborator
queries (`self.orders(...)`, `self.trades(...)`, `self.now()`) are passed
to each handler as explicit inputs; `sys.exit` / `raise` become halting /
`Except.error` in an explicit event-loop fold.
-/

namespace AAT

/-- Identity of a tradable security; only the identity matters here. -/
structure Instrument where
  name : String
deriving DecidableEq

/-- Order side (`aat.Side`). -/
inductive Side where
  | BUY
  | SELL
deriving DecidableEq

/-- Order type (`aat.Order.Types`); the strategies only emit MARKET. -/
inductive OrderType where
  | MARKET
  | LIMIT
deriving DecidableEq

/-- An order as constructed by the strategies. -/
structure Order where
  side : Side
  price : ℚ
  volume : ℚ
  instrument : Instrument
  order_type : OrderType
  exchange : String
deriving DecidableEq

/-- A market trade event as consumed by `onTrade` (`trade.price`,
`trade.instrument`, `trade.exchange`). -/
structure TradeEv where
  price : ℚ
  instrument : Instrument
  exchange : String
deriving DecidableEq

/-- Wall-clock reading returned by `self.now()`. -/
structure Clock where
  hour : ℕ
  minute : ℕ
deriving DecidableEq

/-- Python `lst[-n:]`: for `n ≥ 1` the last `min n (length lst)` elements
in order; for `n = 0` the slice `lst[-0:] = lst[0:]` is the whole list. -/
def sliceLast (n : ℕ) (l : List ℚ) : List ℚ :=
  if n = 0 then l else ((l.reverse.take n).reverse)

/-- The last `n` elements of a list, in arrival order. -/
def takeLast (n : ℕ) (l : List ℚ) : List ℚ :=
  (l.reverse.take n).reverse

/-- Arithmetic mean of a list of rationals. -/
def listMean (l : List ℚ) : ℚ :=
  l.sum / (l.length : ℚ)

/-- `pd.Series(l).rolling(n, min_periods=n).mean().iloc[-1]`: the mean of
the last `n` values when at least `n` observations exist (`n ≥ 1`),
otherwise NaN (modelled as `none`). -/
def rollingMeanLast (n : ℕ) (l : List ℚ) : Option ℚ :=
  if 0 < n ∧ n ≤ l.length then some (listMean (takeLast n l)) else none

/-- Comparison `a > b` on possibly-NaN floats: any comparison with NaN
(`none`) is `false`. -/
def optGT : Option ℚ → Option ℚ → Bool
  | some a, some b => decide (b < a)
  | _, _ => false

/-- Comparison `a <= b` on possibly-NaN floats: any comparison with NaN
(`none`) is `false`. -/
def optLE : Option ℚ → Option ℚ → Bool
  | some a, some b => decide (a ≤ b)
  | _, _ => false

/-- `long_mvg_av + (long_mvg_av * 0.005)`: the fixed 0.5% bias applied to
the long moving average. -/
def biased (x : ℚ) : ℚ :=
  x + x * (5 / 1000)

namespace GoldenDeathStrategy

/-- Constructor parameters of `GoldenDeathStrategy`. -/
structure Config where
  long_ma : ℕ
  short_ma : ℕ
  bail_hour : ℕ
  bail_minute : ℕ
deriving DecidableEq

/-- Mutable state of a `GoldenDeathStrategy` instance. -/
structure State where
  long_ma_list : List ℚ
  short_ma_list : List ℚ
  triggered : Bool
  entered : Bool
  buy_order : Option Order
  volume : ℚ
  sell_order : Option Order
deriving DecidableEq

/-- The state set up by `__init__`. -/
def State.initial : State :=
  { long_ma_list := []
    short_ma_list := []
    triggered := false
    entered := false
    buy_order := none
    volume := 0
    sell_order := none }

/-- One window update of `onTrade`: append the price, keep the last `n`
(`self._long_ma_list = self._long_ma_list[-self._long_ma:]`). -/
def gdAppend (n : ℕ) (w : List ℚ) (p : ℚ) : List ℚ :=
  sliceLast n (w ++ [p])

/-- The biased long moving average computed by `onTrade` over the
already-updated long window. -/
def longBiasedAvg (cfg : Config) (longL : List ℚ) : Option ℚ :=
  (rollingMeanLast cfg.long_ma longL).map biased

/-- The short moving average computed by `onTrade` over the
already-updated short window. -/
def shortAvg (cfg : Config) (shortL : List ℚ) : Option ℚ :=
  rollingMeanLast cfg.short_ma shortL

/-- `long_mvg_av > short_mvg_av` (after biasing): the bearish reading. -/
def bearishSignal (cfg : Config) (longL shortL : List ℚ) : Bool :=
  optGT (longBiasedAvg cfg longL) (shortAvg cfg shortL)

/-- `long_mvg_av <= short_mvg_av` (after biasing): the bullish reading. -/
def bullishSignal (cfg : Config) (longL shortL : List ℚ) : Bool :=
  optLE (longBiasedAvg cfg longL) (shortAvg cfg shortL)

/-- `GoldenDeathStrategy.onTrade`.  Inputs beyond the state: the trade,
the clock reading `self.now()`, and the open orders returned by
`self.orders(trade.instrument)`.  Output: the new state and the list of
orders submitted via `self.newOrder`, or `Except.error` for the
`raise Exception("Never in this state")` branch. -/
def onTrade (cfg : Config) (s : State) (trade : TradeEv) (now : Clock)
    (openOrders : List Order) : Except String (State × List Order) :=
  let longL := gdAppend cfg.long_ma s.long_ma_list trade.price
  let shortL := gdAppend cfg.short_ma s.short_ma_list trade.price
  let s1 : State := { s with long_ma_list := longL, short_ma_list := shortL }
  if longL.length < cfg.long_ma then
    .ok (s1, [])
  else if now.hour = 9 ∧ now.minute ≤ 45 then
    .ok (s1, [])
  else if s1.entered then
    if s1.triggered = false then
      .error "Never in this state"
    else if bearishSignal cfg longL shortL then
      if s1.sell_order.isNone then
        let o : Order :=
          { side := Side.SELL
            price := trade.price
            volume := s1.volume
            instrument := trade.instrument
            order_type := OrderType.MARKET
            exchange := trade.exchange }
        .ok ({ s1 with sell_order := some o }, [o])
      else
        .ok (s1, [])
    else if s1.sell_order.isNone ∧ now.hour = cfg.bail_hour ∧
        cfg.bail_minute ≤ now.minute then
      let o : Order :=
        { side := Side.SELL
          price := trade.price
          volume := s1.volume
          instrument := trade.instrument
          order_type := OrderType.MARKET
          exchange := trade.exchange }
      .ok ({ s1 with sell_order := some o }, [o])
    else
      .ok (s1, [])
  else if s1.triggered = false then
    .ok ({ s1 with triggered := bearishSignal cfg longL shortL }, [])
  else if bullishSignal cfg longL shortL then
    if openOrders.isEmpty then
      let v : ℚ := ((⌈(1000 : ℚ) / trade.price⌉ : ℤ) : ℚ)
      let o : Order :=
        { side := Side.BUY
          price := trade.price
          volume := v
          instrument := trade.instrument
          order_type := OrderType.MARKET
          exchange := trade.exchange }
      .ok ({ s1 with volume := v, buy_order := some o }, [o])
    else
      .ok (s1, [])
  else
    .ok (s1, [])

/-- `GoldenDeathStrategy.onTraded`: reconcile a fill (`trade.my_order`)
against the pending buy/sell intents. -/
def onTraded (s : State) (myOrder : Order) : State :=
  if s.buy_order = some myOrder then
    { s with entered := true, buy_order := none }
  else if s.sell_order = some myOrder then
    { s with entered := false, sell_order := none }
  else
    s

/-- The events a `GoldenDeathStrategy` instance can receive, with the
external query answers packaged alongside each trade event. -/
inductive Ev where
  | trade (t : TradeEv) (now : Clock) (openOrders : List Order)
  | traded (myOrder : Order)
  | rejected
deriving DecidableEq

/-- Sequential event loop: one event processed to completion at a time.
`onRejected` calls `sys.exit(0)`, which terminates the process: the rest
of the event list is not processed.  The result collects all orders
submitted via `newOrder`. -/
def run (cfg : Config) (s : State) : List Ev → Except String (State × List Order)
  | [] => .ok (s, [])
  | Ev.trade t now oo :: rest =>
    match onTrade cfg s t now oo with
    | .error m => .error m
    | .ok (s1, em) =>
      match run cfg s1 rest with
      | .error m => .error m
      | .ok (s2, tr) => .ok (s2, em ++ tr)
  | Ev.traded o :: rest => run cfg (onTraded s o) rest
  | Ev.rejected :: _ => .ok (s, [])

/-- The trace of submitted orders of a successful run. -/
def runTrace (cfg : Config) (s : State) (evs : List Ev) : Option (List Order) :=
  match run cfg s evs with
  | .ok (_, tr) => some tr
  | .error _ => none

/-- The final state of a successful run. -/
def runState (cfg : Config) (s : State) (evs : List Ev) : Option State :=
  match run cfg s evs with
  | .ok (s1, _) => some s1
  | .error _ => none

end GoldenDeathStrategy

namespace SellPlusPercentStrategy

/-- Constructor parameter of `SellPlusPercentStrategy`. -/
structure Config where
  percent : ℤ
deriving DecidableEq

/-- `self._up_percent = 1.0 + float(percent) / 100`. -/
def up_percent (cfg : Config) : ℚ :=
  1 + (cfg.percent : ℚ) / 100

/-- `self._down_percent = 1.0 - float(percent) / 100`. -/
def down_percent (cfg : Config) : ℚ :=
  1 - (cfg.percent : ℚ) / 100

/-- A stop-band entry `(take_profit_price, stop_loss_price, volume)`. -/
structure StopBand where
  take_profit : ℚ
  stop_loss : ℚ
  volume : ℚ
deriving DecidableEq

/-- Mutable state: the per-instrument stop dictionary `self._stop`. -/
structure State where
  stop : Instrument → Option StopBand

/-- The state set up by `__init__`: an empty dictionary. -/
def State.initial : State :=
  { stop := fun _ => none }

/-- A fill event as consumed by `onBought` / `onSold` (`trade.price`,
`trade.volume`, `trade.instrument`). -/
structure FillEv where
  price : ℚ
  volume : ℚ
  instrument : Instrument
  exchange : String
deriving DecidableEq

/-- `SellPlusPercentStrategy.onTrade`.  Inputs beyond the state: the
trade, the open orders returned by `self.orders(trade.instrument)`, and
the number of past fills returned by `self.trades(trade.instrument)`.
Output: the (unchanged) state and the orders submitted via `newOrder`. -/
def onTrade (s : State) (trade : TradeEv) (openOrders : List Order)
    (pastTrades : ℕ) : State × List Order :=
  if openOrders.isEmpty then
    if pastTrades = 0 then
      let o : Order :=
        { side := Side.BUY
          price := trade.price
          volume := ((⌈(1000 : ℚ) / trade.price⌉ : ℤ) : ℚ)
          instrument := trade.instrument
          order_type := OrderType.MARKET
          exchange := trade.exchange }
      (s, [o])
    else
      match s.stop trade.instrument with
      | some b =>
        if pastTrades = 1 ∧ (b.take_profit ≤ trade.price ∨ trade.price ≤ b.stop_loss) then
          let o : Order :=
            { side := Side.SELL
              price := trade.price
              volume := b.volume
              instrument := trade.instrument
              order_type := OrderType.MARKET
              exchange := trade.exchange }
          (s, [o])
        else
          (s, [])
      | none => (s, [])
  else
    (s, [])

/-- `SellPlusPercentStrategy.onBought`: record the stop band
`(price * up_percent, price * down_percent, volume)` for the filled
instrument. -/
def onBought (cfg : Config) (s : State) (t : FillEv) : State :=
  { stop := fun i =>
      if i = t.instrument then
        some { take_profit := t.price * up_percent cfg
               stop_loss := t.price * down_percent cfg
               volume := t.volume }
      else s.stop i }

/-- `SellPlusPercentStrategy.onSold`: `del self._stop[trade.instrument]`.
Deleting a missing key raises `KeyError`. -/
def onSold (s : State) (t : FillEv) : Except String State :=
  match s.stop t.instrument with
  | some _ =>
    .ok { stop := fun i => if i = t.instrument then none else s.stop i }
  | none => .error "KeyError"

/-- The events a `SellPlusPercentStrategy` instance can receive. -/
inductive Ev where
  | trade (t : TradeEv) (openOrders : List Order) (pastTrades : ℕ)
  | bought (t : FillEv)
  | sold (t : FillEv)
  | rejected
deriving DecidableEq

/-- Sequential event loop; `onRejected` calls `sys.exit(0)`, terminating
the process, so the rest of the event list is not processed. -/
def run (cfg : Config) (s : State) : List Ev → Except String (State × List Order)
  | [] => .ok (s, [])
  | Ev.trade t oo n :: rest =>
    match onTrade s t oo n with
    | (s1, em) =>
      match run cfg s1 rest with
      | .error m => .error m
      | .ok (s2, tr) => .ok (s2, em ++ tr)
  | Ev.bought t :: rest => run cfg (onBought cfg s t) rest
  | Ev.sold t :: rest =>
    match onSold s t with
    | .error m => .error m
    | .ok s1 => run cfg s1 rest
  | Ev.rejected :: _ => .ok (s, [])

/-- One step of the spec-side band-lifecycle history predicate. -/
def bandStep (ins : Instrument) (b : Bool) (e : Ev) : Bool :=
  match e with
  | Ev.bought t => if t.instrument = ins then true else b
  | Ev.sold t => if t.instrument = ins then false else b
  | _ => b

/-- The history predicate of the spec sentence, in its own words: a
StopBand should exist for `ins` exactly when a buy fill for `ins` has
occurred and no subsequent sell fill for `ins` has occurred. -/
def bandExpected (evs : List Ev) (ins : Instrument) : Bool :=
  evs.foldl (bandStep ins) false

end SellPlusPercentStrategy

/-! Auxiliary definitions used by the verification statements. -/

/-- The instrument used by the concrete scenarios. -/
def spy : Instrument := ⟨"SPY"⟩

namespace GoldenDeathStrategy

/-- Every SELL order in the trace carries the volume of the most recent
preceding BUY order (and some BUY precedes every SELL); the accumulator
is the volume of the most recent BUY seen so far. -/
def sellVolumesMatch : Option ℚ → List Order → Bool
  | _, [] => true
  | cur, o :: rest =>
    match o.side with
    | Side.BUY => sellVolumesMatch (some o.volume) rest
    | Side.SELL =>
      (match cur with
       | some v => decide (o.volume = v)
       | none => false) && sellVolumesMatch cur rest

/-- State invariant of the crossover machine: being in a position, or
holding a pending buy intent, implies the triggered flag is set. -/
def Inv (s : State) : Prop :=
  (s.entered = true → s.triggered = true) ∧
  (s.buy_order.isSome = true → s.triggered = true)

/-- Volume-tracking invariant: whenever the strategy is in a position or
holds a pending buy intent, the most recent BUY in the trace (the
accumulator) recorded exactly `s.volume`. -/
def VolInv (s : State) (cur : Option ℚ) : Prop :=
  (s.entered = true ∨ s.buy_order.isSome = true) → cur = some s.volume

/-- The BUY order constructed by the armed-bullish branch of `onTrade`:
market order sized `ceil(1000 / price)`. -/
def buyIntent (t : TradeEv) : Order :=
  { side := Side.BUY
    price := t.price
    volume := ((⌈(1000 : ℚ) / t.price⌉ : ℤ) : ℚ)
    instrument := t.instrument
    order_type := OrderType.MARKET
    exchange := t.exchange }

/-- The SELL order constructed by the exit branches of `onTrade`: market
order carrying the recorded position volume `v`. -/
def sellIntent (t : TradeEv) (v : ℚ) : Order :=
  { side := Side.SELL
    price := t.price
    volume := v
    instrument := t.instrument
    order_type := OrderType.MARKET
    exchange := t.exchange }

/-- Configuration of the spec's concrete scenario: long=3, short=2. -/
def c2Cfg : Config := ⟨3, 2, 15, 45⟩

/-- A trade event at price `p`, outside the warm-up window, with the
open-order query returning the empty set. -/
def c2Ev (p : ℚ) : Ev := Ev.trade ⟨p, spy, "iex"⟩ ⟨10, 0⟩ []

/-- The concrete scenario's price stream `[10, 10, 10, 9, 8]`. -/
def c2Evs : List Ev := [c2Ev 10, c2Ev 10, c2Ev 10, c2Ev 9, c2Ev 8]

/-- A small configuration for concrete runs: long=2, short=1,
bail at 15:45. -/
def wCfg : Config := ⟨2, 1, 15, 45⟩

/-- The BUY intent emitted in the concrete entry run `wEvs`. -/
def wBuy : Order := buyIntent ⟨12, spy, "iex"⟩

/-- A concrete entry run under `wCfg`: 10, 10 arms (biased long average
10.05 > short average 10), 12 is bullish and buys, then the fill enters
the position. -/
def wEvs : List Ev :=
  [Ev.trade ⟨10, spy, "iex"⟩ ⟨10, 0⟩ [], Ev.trade ⟨10, spy, "iex"⟩ ⟨10, 0⟩ [],
   Ev.trade ⟨12, spy, "iex"⟩ ⟨10, 0⟩ [], Ev.traded wBuy]

/-- The entry run followed by a falling price, which is a bearish reading
while in position and so emits the exit SELL. -/
def wEvsExit : List Ev := wEvs ++ [Ev.trade ⟨9, spy, "iex"⟩ ⟨10, 0⟩ []]

/-- The SELL intent emitted at the end of `wEvsExit`. -/
def wSell : Order := sellIntent ⟨9, spy, "iex"⟩ 84

end GoldenDeathStrategy

/-! Lemmas. -/

namespace GoldenDeathStrategy

/-- A bullish reading precludes a bearish one. -/
theorem bearish_false_of_bullish {cfg : Config} {L S : List ℚ}
    (h : bullishSignal cfg L S = true) : bearishSignal cfg L S = false := by
  unfold bullishSignal at h
  unfold bearishSignal
  cases hL : longBiasedAvg cfg L <;> cases hS : shortAvg cfg S <;> rw [hL, hS] at h
  · simp [optLE] at h
  · simp [optLE] at h
  · simp [optLE] at h
  · simp only [optLE, decide_eq_true_eq] at h
    simp only [optGT, decide_eq_false_iff_not]
    exact not_lt.mpr h

/-- Concrete ceiling value used by the witness runs (price 12). -/
theorem ceil_250_3 : (⌈(250 : ℚ) / 3⌉ : ℤ) = 84 := by
  rw [Int.ceil_eq_iff]
  norm_num

/-- Complete case analysis of a successful `onTrade`: the windows are
always updated, and the call either emits nothing (leaving the position
fields unchanged), emits one BUY (from the armed flat state, with the
open-order query empty), or emits one SELL (from the entered state). -/
theorem onTrade_ok_cases {cfg : Config} {s : State} {t : TradeEv} {now : Clock}
    {oo : List Order} {s2 : State} {em : List Order}
    (h : onTrade cfg s t now oo = .ok (s2, em)) :
    s2.long_ma_list = gdAppend cfg.long_ma s.long_ma_list t.price ∧
    s2.short_ma_list = gdAppend cfg.short_ma s.short_ma_list t.price ∧
    ((em = [] ∧ s2.entered = s.entered ∧ s2.buy_order = s.buy_order ∧
        s2.volume = s.volume ∧ s2.sell_order = s.sell_order ∧
        (s2.triggered = s.triggered ∨
          (s.triggered = false ∧ s.entered = false ∧ s2.entered = false))) ∨
      (∃ o, em = [o] ∧ o.side = Side.BUY ∧ o.price = t.price ∧
        o.volume = ((⌈(1000 : ℚ) / t.price⌉ : ℤ) : ℚ) ∧ oo = [] ∧
        s.entered = false ∧ s.triggered = true ∧
        s2.entered = false ∧ s2.triggered = true ∧ s2.buy_order = some o ∧
        s2.volume = o.volume ∧ s2.sell_order = s.sell_order) ∨
      (∃ o, em = [o] ∧ o.side = Side.SELL ∧ o.volume = s.volume ∧
        s.entered = true ∧ s.triggered = true ∧ s.sell_order = none ∧
        s2.entered = true ∧ s2.triggered = true ∧ s2.buy_order = s.buy_order ∧
        s2.volume = s.volume ∧ s2.sell_order = some o)) := by
  by_cases h1 : (gdAppend cfg.long_ma s.long_ma_list t.price).length < cfg.long_ma
  · simp only [onTrade, if_pos h1, Except.ok.injEq, Prod.mk.injEq] at h
    obtain ⟨rfl, rfl⟩ := h
    exact ⟨rfl, rfl, Or.inl ⟨rfl, rfl, rfl, rfl, rfl, Or.inl rfl⟩⟩
  by_cases h2 : now.hour = 9 ∧ now.minute ≤ 45
  · simp only [onTrade, if_neg h1, if_pos h2, Except.ok.injEq, Prod.mk.injEq] at h
    obtain ⟨rfl, rfl⟩ := h
    exact ⟨rfl, rfl, Or.inl ⟨rfl, rfl, rfl, rfl, rfl, Or.inl rfl⟩⟩
  cases hent : s.entered with
  | true =>
    cases htrig : s.triggered with
    | false =>
      simp [onTrade, if_neg h1, if_neg h2, hent, htrig] at h
    | true =>
      cases hb : bearishSignal cfg (gdAppend cfg.long_ma s.long_ma_list t.price)
          (gdAppend cfg.short_ma s.short_ma_list t.price) with
      | true =>
        cases hsell : s.sell_order with
        | none =>
          simp only [onTrade, if_neg h1, if_neg h2, hent, htrig, hb, hsell,
            Option.isNone_none, if_pos, if_true, if_false, Bool.true_eq_false,
            Bool.false_eq_true, Except.ok.injEq, Prod.mk.injEq, ite_true,
            ite_false, reduceIte] at h
          obtain ⟨rfl, rfl⟩ := h
          exact ⟨rfl, rfl, Or.inr (Or.inr
            ⟨_, rfl, rfl, rfl, rfl, rfl, rfl, rfl, rfl, rfl, rfl, rfl⟩)⟩
        | some o2 =>
          simp only [onTrade, if_neg h1, if_neg h2, hent, htrig, hb, hsell,
            Option.isNone_some, Bool.true_eq_false, Bool.false_eq_true,
            Except.ok.injEq, Prod.mk.injEq, ite_true, ite_false, reduceIte] at h
          obtain ⟨rfl, rfl⟩ := h
          exact ⟨rfl, rfl, Or.inl ⟨rfl, rfl, rfl, rfl, rfl, Or.inl rfl⟩⟩
      | false =>
        cases hsell : s.sell_order with
        | none =>
          by_cases hbail : now.hour = cfg.bail_hour ∧ cfg.bail_minute ≤ now.minute
          · simp [onTrade, if_neg h1, if_neg h2, hent, htrig, hb, hsell] at h
            rw [if_pos hbail] at h
            simp only [Except.ok.injEq, Prod.mk.injEq] at h
            obtain ⟨rfl, rfl⟩ := h
            exact ⟨rfl, rfl, Or.inr (Or.inr
              ⟨_, rfl, rfl, rfl, rfl, rfl, rfl, rfl, rfl, rfl, rfl, rfl⟩)⟩
          · simp [onTrade, if_neg h1, if_neg h2, hent, htrig, hb, hsell] at h
            rw [if_neg hbail] at h
            simp only [Except.ok.injEq, Prod.mk.injEq] at h
            obtain ⟨rfl, rfl⟩ := h
            exact ⟨rfl, rfl, Or.inl ⟨rfl, rfl, rfl, rfl, rfl, Or.inl rfl⟩⟩
        | some o2 =>
          simp only [onTrade, if_neg h1, if_neg h2, hent, htrig, hb, hsell,
            Option.isNone_some, Bool.true_eq_false, Bool.false_eq_true, false_and,
            Except.ok.injEq, Prod.mk.injEq, ite_true, ite_false, reduceIte] at h
          obtain ⟨rfl, rfl⟩ := h
          exact ⟨rfl, rfl, Or.inl ⟨rfl, rfl, rfl, rfl, rfl, Or.inl rfl⟩⟩
  | false =>
    cases htrig : s.triggered with
    | false =>
      simp only [onTrade, if_neg h1, if_neg h2, hent, htrig, Bool.true_eq_false,
        Bool.false_eq_true, Except.ok.injEq, Prod.mk.injEq, ite_true, ite_false,
        reduceIte] at h
      obtain ⟨rfl, rfl⟩ := h
      exact ⟨rfl, rfl, Or.inl ⟨rfl, rfl, rfl, rfl, rfl, Or.inr ⟨rfl, rfl, rfl⟩⟩⟩
    | true =>
      cases hbull : bullishSignal cfg (gdAppend cfg.long_ma s.long_ma_list t.price)
          (gdAppend cfg.short_ma s.short_ma_list t.price) with
      | true =>
        cases hoo : oo with
        | nil =>
          simp only [onTrade, if_neg h1, if_neg h2, hent, htrig, hbull, hoo,
            List.isEmpty_nil, Bool.true_eq_false, Bool.false_eq_true,
            Except.ok.injEq, Prod.mk.injEq, ite_true, ite_false, reduceIte] at h
          obtain ⟨rfl, rfl⟩ := h
          exact ⟨rfl, rfl, Or.inr (Or.inl
            ⟨_, rfl, rfl, rfl, rfl, rfl, rfl, rfl, rfl, rfl, rfl, rfl, rfl⟩)⟩
        | cons a l =>
          simp only [onTrade, if_neg h1, if_neg h2, hent, htrig, hbull, hoo,
            List.isEmpty_cons, Bool.true_eq_false, Bool.false_eq_true,
            Except.ok.injEq, Prod.mk.injEq, ite_true, ite_false, reduceIte] at h
          obtain ⟨rfl, rfl⟩ := h
          exact ⟨rfl, rfl, Or.inl ⟨rfl, rfl, rfl, rfl, rfl, Or.inl rfl⟩⟩
      | false =>
        simp only [onTrade, if_neg h1, if_neg h2, hent, htrig, hbull,
          Bool.true_eq_false, Bool.false_eq_true, Except.ok.injEq, Prod.mk.injEq,
          ite_true, ite_false, reduceIte] at h
        obtain ⟨rfl, rfl⟩ := h
        exact ⟨rfl, rfl, Or.inl ⟨rfl, rfl, rfl, rfl, rfl, Or.inl rfl⟩⟩

/-- Case analysis of `onTraded`. -/
theorem onTraded_cases (s : State) (o : Order) :
    (s.buy_order = some o ∧
      onTraded s o = { s with entered := true, buy_order := none }) ∨
    (s.buy_order ≠ some o ∧ s.sell_order = some o ∧
      onTraded s o = { s with entered := false, sell_order := none }) ∨
    (s.buy_order ≠ some o ∧ s.sell_order ≠ some o ∧ onTraded s o = s) := by
  unfold onTraded
  by_cases hb : s.buy_order = some o
  · exact Or.inl ⟨hb, by rw [if_pos hb]⟩
  · by_cases hs : s.sell_order = some o
    · exact Or.inr (Or.inl ⟨hb, hs, by rw [if_neg hb, if_pos hs]⟩)
    · exact Or.inr (Or.inr ⟨hb, hs, by rw [if_neg hb, if_neg hs]⟩)

/-- `Inv` is preserved by every successful run. -/
theorem run_preserves_Inv (cfg : Config) (evs : List Ev) :
    ∀ s s2 tr, Inv s → run cfg s evs = .ok (s2, tr) → Inv s2 := by
  induction evs with
  | nil =>
    intro s s2 tr hI h
    simp only [run, Except.ok.injEq, Prod.mk.injEq] at h
    obtain ⟨rfl, rfl⟩ := h
    exact hI
  | cons e rest ih =>
    intro s s2 tr hI h
    cases e with
    | trade t now oo =>
      rw [run] at h
      cases ho : onTrade cfg s t now oo with
      | error m => rw [ho] at h; simp at h
      | ok p =>
        obtain ⟨s1, em⟩ := p
        rw [ho] at h
        dsimp only at h
        cases hr : run cfg s1 rest with
        | error m => rw [hr] at h; simp at h
        | ok q =>
          obtain ⟨s3, tr3⟩ := q
          rw [hr] at h
          simp only [Except.ok.injEq, Prod.mk.injEq] at h
          obtain ⟨rfl, rfl⟩ := h
          refine ih s1 s3 tr3 ?_ hr
          obtain ⟨_, _, hc⟩ := onTrade_ok_cases ho
          rcases hc with ⟨_, he, hbo, _, _, ht⟩ |
            ⟨o, _, _, _, _, _, _, _, _, ht2, _, _, _⟩ |
            ⟨o, _, _, _, _, _, _, _, ht2, _, _, _⟩
          · constructor
            · intro hx
              rcases ht with ht | ⟨_, _, hf⟩
              · rw [ht]; exact hI.1 (he ▸ hx)
              · rw [hx] at hf; cases hf
            · intro hx
              rcases ht with ht | ⟨htf, hef, _⟩
              · rw [ht]; exact hI.2 (hbo ▸ hx)
              · exfalso
                have := hI.2 (hbo ▸ hx)
                rw [htf] at this
                cases this
          · exact ⟨fun _ => ht2, fun _ => ht2⟩
          · exact ⟨fun _ => ht2, fun _ => ht2⟩
    | traded o =>
      rw [run] at h
      refine ih (onTraded s o) s2 tr ?_ h
      rcases onTraded_cases s o with ⟨hb, heq⟩ | ⟨_, _, heq⟩ | ⟨_, _, heq⟩
      · rw [heq]
        have htr : s.triggered = true := hI.2 (by rw [hb]; rfl)
        exact ⟨fun _ => htr, fun _ => htr⟩
      · rw [heq]
        exact ⟨fun hx => Bool.noConfusion hx, fun hx => hI.2 hx⟩
      · rw [heq]; exact hI
    | rejected =>
      rw [run] at h
      simp only [Except.ok.injEq, Prod.mk.injEq] at h
      obtain ⟨rfl, rfl⟩ := h
      exact hI

/-- If the impossible entered-but-not-triggered state were reached, a full
window outside the warm-up makes `onTrade` raise. -/
theorem onTrade_never_state (cfg : Config) (s : State) (t : TradeEv) (now : Clock)
    (oo : List Order)
    (hlen : ¬ (gdAppend cfg.long_ma s.long_ma_list t.price).length < cfg.long_ma)
    (hwarm : ¬ (now.hour = 9 ∧ now.minute ≤ 45))
    (hent : s.entered = true) (htrig : s.triggered = false) :
    onTrade cfg s t now oo = .error "Never in this state" := by
  simp [onTrade, if_neg hlen, if_neg hwarm, hent, htrig]

theorem sellVolumesMatch_nil (cur : Option ℚ) : sellVolumesMatch cur [] = true :=
  rfl

theorem sellVolumesMatch_cons_buy (cur : Option ℚ) (o : Order) (rest : List Order)
    (h : o.side = Side.BUY) :
    sellVolumesMatch cur (o :: rest) = sellVolumesMatch (some o.volume) rest := by
  simp [sellVolumesMatch, h]

theorem sellVolumesMatch_cons_sell (v : ℚ) (o : Order) (rest : List Order)
    (h : o.side = Side.SELL) (hv : o.volume = v) :
    sellVolumesMatch (some v) (o :: rest) = sellVolumesMatch (some v) rest := by
  simp [sellVolumesMatch, h, hv]

/-- The volume bookkeeping along a successful run: every emitted SELL
repeats the volume of the most recent emitted BUY, and every emitted BUY
is sized `ceil(1000 / price)`. -/
theorem run_sellVolumes (cfg : Config) (evs : List Ev) :
    ∀ s cur s2 tr, VolInv s cur → run cfg s evs = .ok (s2, tr) →
      sellVolumesMatch cur tr = true ∧
      (∀ o ∈ tr, o.side = Side.BUY →
        o.volume = ((⌈(1000 : ℚ) / o.price⌉ : ℤ) : ℚ)) := by
  induction evs with
  | nil =>
    intro s cur s2 tr _ h
    simp only [run, Except.ok.injEq, Prod.mk.injEq] at h
    obtain ⟨rfl, rfl⟩ := h
    exact ⟨rfl, by simp⟩
  | cons e rest ih =>
    intro s cur s2 tr hV h
    cases e with
    | trade t now oo =>
      rw [run] at h
      cases ho : onTrade cfg s t now oo with
      | error m => rw [ho] at h; simp at h
      | ok p =>
        obtain ⟨s1, em⟩ := p
        rw [ho] at h
        dsimp only at h
        cases hr : run cfg s1 rest with
        | error m => rw [hr] at h; simp at h
        | ok q =>
          obtain ⟨s3, tr3⟩ := q
          rw [hr] at h
          simp only [Except.ok.injEq, Prod.mk.injEq] at h
          obtain ⟨rfl, rfl⟩ := h
          obtain ⟨_, _, hc⟩ := onTrade_ok_cases ho
          rcases hc with ⟨hem, he, hbo, hv, _, _⟩ |
            ⟨o, hem, hside, hprice, hvol, _, _, _, _, _, hbo2, hv2, _⟩ |
            ⟨o, hem, hside, hvol, hent, _, _, he3, _, hbo3, hv3, _⟩
          · subst hem
            have hV1 : VolInv s1 cur := by
              intro hx
              rw [hv]
              exact hV (by rw [← he, ← hbo]; exact hx)
            have := ih s1 cur s3 tr3 hV1 hr
            simpa using this
          · subst hem
            have hV1 : VolInv s1 (some o.volume) := by
              intro _
              rw [hv2]
            obtain ⟨hm, hb⟩ := ih s1 (some o.volume) s3 tr3 hV1 hr
            constructor
            · rw [List.cons_append, List.nil_append,
                sellVolumesMatch_cons_buy cur o tr3 hside]
              exact hm
            · intro o2 ho2 hs2
              rcases List.mem_cons.mp (by simpa using ho2) with rfl | hmem
              · rw [hvol, hprice]
              · exact hb o2 hmem hs2
          · subst hem
            have hcur : cur = some s.volume := hV (Or.inl hent)
            have hV1 : VolInv s1 cur := by
              intro _
              rw [hv3, hcur]
            obtain ⟨hm, hb⟩ := ih s1 cur s3 tr3 hV1 hr
            constructor
            · rw [List.cons_append, List.nil_append, hcur] at *
              rw [sellVolumesMatch_cons_sell s.volume o tr3 hside hvol]
              exact hm
            · intro o2 ho2 hs2
              rcases List.mem_cons.mp (by simpa using ho2) with rfl | hmem
              · rw [hside] at hs2; cases hs2
              · exact hb o2 hmem hs2
    | traded o =>
      rw [run] at h
      refine ih (onTraded s o) cur s2 tr ?_ h
      rcases onTraded_cases s o with ⟨hb, heq⟩ | ⟨_, _, heq⟩ | ⟨_, _, heq⟩
      · rw [heq]
        intro _
        exact hV (Or.inr (by rw [hb]; rfl))
      · rw [heq]
        intro hx
        refine hV ?_
        rcases hx with hx | hx
        · cases hx
        · exact Or.inr hx
      · rw [heq]; exact hV
    | rejected =>
      rw [run] at h
      simp only [Except.ok.injEq, Prod.mk.injEq] at h
      obtain ⟨rfl, rfl⟩ := h
      exact ⟨rfl, by simp⟩

/-- The event loop never processes anything after a rejection. -/
theorem run_stops_at_rejected (cfg : Config) (evs1 : List Ev) :
    ∀ (evs2 : List Ev) (s : State),
      run cfg s (evs1 ++ Ev.rejected :: evs2) = run cfg s evs1 := by
  induction evs1 with
  | nil => intro evs2 s; rfl
  | cons e rest ih =>
    intro evs2 s
    cases e with
    | trade t now oo =>
      simp only [List.cons_append, run]
      cases onTrade cfg s t now oo with
      | error m => rfl
      | ok p =>
        obtain ⟨s1, em⟩ := p
        dsimp only
        simp only [List.append_eq]
        rw [ih]
    | traded o =>
      simp only [List.cons_append, run]
      simp only [List.append_eq]
      exact ih evs2 (onTraded s o)
    | rejected => rfl

end GoldenDeathStrategy

theorem takeLast_nil (n : ℕ) : takeLast n ([] : List ℚ) = [] := by
  simp [takeLast]

theorem takeLast_length_le (n : ℕ) (l : List ℚ) : (takeLast n l).length ≤ n := by
  simp [takeLast]

/-- Appending one element to a saturated window and re-truncating gives
the same result as truncating the full history. -/
theorem takeLast_append_one (n : ℕ) (hn : 0 < n) (xs : List ℚ) (p : ℚ) :
    takeLast n (takeLast n xs ++ [p]) = takeLast n (xs ++ [p]) := by
  obtain ⟨k, rfl⟩ : ∃ k, n = k + 1 := ⟨n - 1, by omega⟩
  simp only [takeLast, List.reverse_append, List.reverse_cons, List.reverse_nil,
    List.nil_append, List.singleton_append, List.take_succ_cons,
    List.reverse_reverse, List.take_take]
  rw [show k ⊓ (k + 1) = k from by omega]

/-- The incremental window maintained by `gdAppend` equals the last `n`
prices of the whole append history. -/
theorem foldl_gdAppend (n : ℕ) (hn : 0 < n) :
    ∀ (ps qs : List ℚ),
      ps.foldl (GoldenDeathStrategy.gdAppend n) (takeLast n qs) =
        takeLast n (qs ++ ps) := by
  intro ps
  induction ps with
  | nil => intro qs; simp
  | cons p ps ih =>
    intro qs
    rw [List.foldl_cons]
    have h1 : GoldenDeathStrategy.gdAppend n (takeLast n qs) p =
        takeLast n (qs ++ [p]) := by
      unfold GoldenDeathStrategy.gdAppend sliceLast
      rw [if_neg (by omega)]
      exact takeLast_append_one n hn qs p
    rw [h1, ih (qs ++ [p])]
    rw [List.append_assoc]
    rfl

namespace SellPlusPercentStrategy

/-- Case analysis of `SellPlusPercentStrategy.onTrade`: the state is
never modified, and the call emits nothing, emits one BUY (open-order
query empty, zero past trades), or emits one SELL (open-order query
empty, exactly one past trade, band breached). -/
theorem onTrade_cases (s : State) (t : TradeEv) (oo : List Order) (n : ℕ) :
    (onTrade s t oo n).1 = s ∧
    ((onTrade s t oo n).2 = [] ∨
      (∃ o, (onTrade s t oo n).2 = [o] ∧ o.side = Side.BUY ∧ o.price = t.price ∧
        o.volume = ((⌈(1000 : ℚ) / t.price⌉ : ℤ) : ℚ) ∧ oo = [] ∧ n = 0) ∨
      (∃ o b, (onTrade s t oo n).2 = [o] ∧ o.side = Side.SELL ∧
        s.stop t.instrument = some b ∧ o.volume = b.volume ∧ oo = [] ∧ n = 1)) := by
  cases hoo : oo with
  | cons a l => exact ⟨by simp [onTrade], Or.inl (by simp [onTrade])⟩
  | nil =>
    by_cases hn : n = 0
    · subst hn
      refine ⟨by simp [onTrade], Or.inr (Or.inl
        ⟨{ side := Side.BUY, price := t.price,
           volume := ((⌈(1000 : ℚ) / t.price⌉ : ℤ) : ℚ), instrument := t.instrument,
           order_type := OrderType.MARKET, exchange := t.exchange },
         by simp [onTrade], rfl, rfl, rfl, rfl, rfl⟩)⟩
    · cases hb : s.stop t.instrument with
      | none =>
        exact ⟨by simp [onTrade, hn, hb], Or.inl (by simp [onTrade, hn, hb])⟩
      | some b =>
        by_cases hcond : n = 1 ∧ (b.take_profit ≤ t.price ∨ t.price ≤ b.stop_loss)
        · refine ⟨by simp [onTrade, hn, hb, hcond], Or.inr (Or.inr
            ⟨{ side := Side.SELL, price := t.price, volume := b.volume,
               instrument := t.instrument, order_type := OrderType.MARKET,
               exchange := t.exchange }, b,
             by simp [onTrade, hn, hb, hcond], rfl, rfl, rfl, rfl, hcond.1⟩)⟩
        · exact ⟨by simp [onTrade, hn, hb, hcond], Or.inl (by simp [onTrade, hn, hb, hcond])⟩

/-- The stop dictionary of a successful run follows the band-lifecycle
history fold, started from the initial dictionary contents. -/
theorem run_band (cfg : Config) (evs : List Ev) :
    ∀ s s2 tr, (∀ e ∈ evs, e ≠ Ev.rejected) → run cfg s evs = .ok (s2, tr) →
      ∀ ins, (s2.stop ins).isSome = evs.foldl (bandStep ins) ((s.stop ins).isSome) := by
  induction evs with
  | nil =>
    intro s s2 tr _ h ins
    simp only [run, Except.ok.injEq, Prod.mk.injEq] at h
    obtain ⟨rfl, rfl⟩ := h
    rfl
  | cons e rest ih =>
    intro s s2 tr hnr h ins
    have hnr1 : ∀ e1 ∈ rest, e1 ≠ Ev.rejected :=
      fun e1 he1 => hnr e1 (List.mem_cons_of_mem _ he1)
    cases e with
    | trade t oo n =>
      rw [run] at h
      rw [show onTrade s t oo n = (s, (onTrade s t oo n).2) from by
        rw [Prod.ext_iff]
        exact ⟨(onTrade_cases s t oo n).1, rfl⟩] at h
      dsimp only at h
      cases hr : run cfg s rest with
      | error m => rw [hr] at h; simp at h
      | ok q =>
        obtain ⟨s3, tr3⟩ := q
        rw [hr] at h
        simp only [Except.ok.injEq, Prod.mk.injEq] at h
        obtain ⟨rfl, rfl⟩ := h
        rw [List.foldl_cons]
        exact ih s s3 tr3 hnr1 hr ins
    | bought t =>
      rw [run] at h
      have hrec := ih (onBought cfg s t) s2 tr hnr1 h ins
      rw [List.foldl_cons, hrec]
      congr 1
      by_cases hi : ins = t.instrument
      · rw [hi]
        simp [onBought, bandStep]
      · have hi2 : ¬ t.instrument = ins := fun hh => hi hh.symm
        simp [onBought, bandStep, hi, hi2]
    | sold t =>
      rw [run] at h
      cases hs : onSold s t with
      | error m => rw [hs] at h; simp at h
      | ok s1 =>
        rw [hs] at h
        dsimp only at h
        have hrec := ih s1 s2 tr hnr1 h ins
        rw [List.foldl_cons, hrec]
        congr 1
        unfold onSold at hs
        cases hb : s.stop t.instrument with
        | none => rw [hb] at hs; simp at hs
        | some b =>
          rw [hb] at hs
          simp only [Except.ok.injEq] at hs
          rw [← hs]
          by_cases hi : ins = t.instrument
          · rw [hi]
            simp [bandStep]
          · have hi2 : ¬ t.instrument = ins := fun hh => hi hh.symm
            simp [bandStep, hi, hi2]
    | rejected => exact absurd rfl (hnr Ev.rejected (List.mem_cons_self _ _))

/-- The event loop never processes anything after a rejection. -/
theorem halts_at_rejected (cfg : Config) (evs1 : List Ev) :
    ∀ (evs2 : List Ev) (s : State),
      run cfg s (evs1 ++ Ev.rejected :: evs2) = run cfg s evs1 := by
  induction evs1 with
  | nil => intro evs2 s; rfl
  | cons e rest ih =>
    intro evs2 s
    cases e with
    | trade t oo n =>
      simp only [List.cons_append, run]
      simp only [List.append_eq, ih]
    | bought t =>
      simp only [List.cons_append, run]
      simp only [List.append_eq]
      exact ih evs2 (onBought cfg s t)
    | sold t =>
      simp only [List.cons_append, run]
      cases onSold s t with
      | error m => rfl
      | ok s1 =>
        dsimp only
        simp only [List.append_eq]
        exact ih evs2 s1
    | rejected => rfl

end SellPlusPercentStrategy

/-! Claim theorems. -/

namespace GoldenDeathStrategy

/-- C1: starting from FLAT_UNARMED (triggered=false, entered=false) with a
full long window outside the warm-up window, a BULLISH signal
(`long_avg_biased <= short_avg`) keeps the state FLAT_UNARMED and emits no
order; a BEARISH signal (`long_avg_biased > short_avg`) moves it to
FLAT_ARMED; and from FLAT_ARMED a subsequent BULLISH signal emits exactly
one BUY intent, whose fill moves the machine to IN_POSITION_ARMED
(entered=true, triggered=true). -/
theorem golden_arming_correctness (cfg : Config) (s : State) (t : TradeEv)
    (now : Clock) (oo : List Order)
    (hlen : ¬ (gdAppend cfg.long_ma s.long_ma_list t.price).length < cfg.long_ma)
    (hwarm : ¬ (now.hour = 9 ∧ now.minute ≤ 45)) :
    (s.entered = false → s.triggered = false →
      bullishSignal cfg (gdAppend cfg.long_ma s.long_ma_list t.price)
        (gdAppend cfg.short_ma s.short_ma_list t.price) = true →
      onTrade cfg s t now oo =
        .ok ({ s with
            long_ma_list := gdAppend cfg.long_ma s.long_ma_list t.price
            short_ma_list := gdAppend cfg.short_ma s.short_ma_list t.price
            triggered := false }, [])) ∧
    (s.entered = false → s.triggered = false →
      bearishSignal cfg (gdAppend cfg.long_ma s.long_ma_list t.price)
        (gdAppend cfg.short_ma s.short_ma_list t.price) = true →
      onTrade cfg s t now oo =
        .ok ({ s with
            long_ma_list := gdAppend cfg.long_ma s.long_ma_list t.price
            short_ma_list := gdAppend cfg.short_ma s.short_ma_list t.price
            triggered := true }, [])) ∧
    (s.entered = false → s.triggered = true →
      bullishSignal cfg (gdAppend cfg.long_ma s.long_ma_list t.price)
        (gdAppend cfg.short_ma s.short_ma_list t.price) = true →
      oo = [] →
      onTrade cfg s t now oo =
        .ok ({ s with
            long_ma_list := gdAppend cfg.long_ma s.long_ma_list t.price
            short_ma_list := gdAppend cfg.short_ma s.short_ma_list t.price
            volume := (buyIntent t).volume
            buy_order := some (buyIntent t) }, [buyIntent t]) ∧
      (buyIntent t).side = Side.BUY ∧
      (onTraded { s with
          long_ma_list := gdAppend cfg.long_ma s.long_ma_list t.price
          short_ma_list := gdAppend cfg.short_ma s.short_ma_list t.price
          volume := (buyIntent t).volume
          buy_order := some (buyIntent t) } (buyIntent t)).entered = true ∧
      (onTraded { s with
          long_ma_list := gdAppend cfg.long_ma s.long_ma_list t.price
          short_ma_list := gdAppend cfg.short_ma s.short_ma_list t.price
          volume := (buyIntent t).volume
          buy_order := some (buyIntent t) } (buyIntent t)).triggered = true ∧
      (onTraded { s with
          long_ma_list := gdAppend cfg.long_ma s.long_ma_list t.price
          short_ma_list := gdAppend cfg.short_ma s.short_ma_list t.price
          volume := (buyIntent t).volume
          buy_order := some (buyIntent t) } (buyIntent t)).buy_order = none) := by
  refine ⟨?_, ?_, ?_⟩
  · intro he ht hbull
    have hb := bearish_false_of_bullish hbull
    simp [onTrade, if_neg hlen, if_neg hwarm, he, ht, hb]
  · intro he ht hbear
    simp [onTrade, if_neg hlen, if_neg hwarm, he, ht, hbear]
  · intro he ht hbull hoo
    subst hoo
    refine ⟨?_, rfl, ?_, ?_, ?_⟩
    · simp [onTrade, if_neg hlen, if_neg hwarm, he, ht, hbull, buyIntent]
    · simp [onTraded]
    · simp [onTraded, ht]
    · simp [onTraded]

/-- Witness for C1 at a concrete configuration and state. -/
theorem golden_arming_correctness_witness :
    onTrade wCfg ⟨[10], [10], false, false, none, 0, none⟩ ⟨11, spy, "iex"⟩
        ⟨10, 0⟩ [] =
      .ok (⟨[10, 11], [11], false, false, none, 0, none⟩, []) ∧
    onTrade wCfg ⟨[10], [10], false, false, none, 0, none⟩ ⟨10, spy, "iex"⟩
        ⟨10, 0⟩ [] =
      .ok (⟨[10, 10], [10], true, false, none, 0, none⟩, []) ∧
    onTrade wCfg ⟨[10], [10], true, false, none, 0, none⟩ ⟨11, spy, "iex"⟩
        ⟨10, 0⟩ [] =
      .ok (⟨[10, 11], [11], true, false, some (buyIntent ⟨11, spy, "iex"⟩),
        (buyIntent ⟨11, spy, "iex"⟩).volume, none⟩, [buyIntent ⟨11, spy, "iex"⟩]) ∧
    (onTraded ⟨[10, 11], [11], true, false, some (buyIntent ⟨11, spy, "iex"⟩),
      (buyIntent ⟨11, spy, "iex"⟩).volume, none⟩ (buyIntent ⟨11, spy, "iex"⟩)).entered
      = true := by
  refine ⟨?_, ?_, ?_, ?_⟩
  · exact (golden_arming_correctness wCfg ⟨[10], [10], false, false, none, 0, none⟩
      ⟨11, spy, "iex"⟩ ⟨10, 0⟩ [] (by decide) (by decide)).1 rfl rfl (by norm_num [wCfg, gdAppend, sliceLast, takeLast, listMean,
      rollingMeanLast, optGT, optLE, biased, longBiasedAvg, shortAvg,
      bullishSignal, bearishSignal])
  · exact (golden_arming_correctness wCfg ⟨[10], [10], false, false, none, 0, none⟩
      ⟨10, spy, "iex"⟩ ⟨10, 0⟩ [] (by decide) (by decide)).2.1 rfl rfl (by norm_num [wCfg, gdAppend, sliceLast, takeLast, listMean,
      rollingMeanLast, optGT, optLE, biased, longBiasedAvg, shortAvg,
      bullishSignal, bearishSignal])
  · exact ((golden_arming_correctness wCfg ⟨[10], [10], true, false, none, 0, none⟩
      ⟨11, spy, "iex"⟩ ⟨10, 0⟩ [] (by decide) (by decide)).2.2 rfl rfl (by norm_num [wCfg, gdAppend, sliceLast, takeLast, listMean,
      rollingMeanLast, optGT, optLE, biased, longBiasedAvg, shortAvg,
      bullishSignal, bearishSignal])
      rfl).1
  · exact ((golden_arming_correctness wCfg ⟨[10], [10], true, false, none, 0, none⟩
      ⟨11, spy, "iex"⟩ ⟨10, 0⟩ [] (by decide) (by decide)).2.2 rfl rfl (by norm_num [wCfg, gdAppend, sliceLast, takeLast, listMean,
      rollingMeanLast, optGT, optLE, biased, longBiasedAvg, shortAvg,
      bullishSignal, bearishSignal])
      rfl).2.2.1

/-- C3: for every event sequence from the initial state, a reachable state
never satisfies entered=true with triggered=false; and in that state (with
a full window, outside the warm-up) `onTrade` raises
`"Never in this state"` instead of silently correcting. -/
theorem golden_unreachable_state :
    (∀ (cfg : Config) (evs : List Ev) (s2 : State) (tr : List Order),
        run cfg State.initial evs = .ok (s2, tr) →
        s2.entered = true → s2.triggered = true) ∧
    (∀ (cfg : Config) (s : State) (t : TradeEv) (now : Clock) (oo : List Order),
        s.entered = true → s.triggered = false →
        ¬ (gdAppend cfg.long_ma s.long_ma_list t.price).length < cfg.long_ma →
        ¬ (now.hour = 9 ∧ now.minute ≤ 45) →
        onTrade cfg s t now oo = .error "Never in this state") := by
  constructor
  · intro cfg evs s2 tr h hent
    have hI : Inv State.initial :=
      ⟨fun hx => Bool.noConfusion hx, fun hx => Bool.noConfusion hx⟩
    exact (run_preserves_Inv cfg evs State.initial s2 tr hI h).1 hent
  · intro cfg s t now oo hent htrig hlen hwarm
    exact onTrade_never_state cfg s t now oo hlen hwarm hent htrig

/-- Witness for C3: a concrete entered run satisfies the invariant, and a
concrete forged bad state raises. -/
theorem golden_unreachable_state_witness :
    State.triggered ⟨[10, 12], [12], true, true, none, 84, none⟩ = true ∧
    onTrade ⟨1, 1, 15, 45⟩ ⟨[], [], false, true, none, 0, none⟩
      ⟨10, spy, "iex"⟩ ⟨10, 0⟩ [] = .error "Never in this state" := by
  constructor
  · refine golden_unreachable_state.1 wCfg wEvs
      ⟨[10, 12], [12], true, true, none, 84, none⟩ [wBuy] ?_ rfl
    norm_num [run, onTrade, onTraded, wEvs, wBuy, buyIntent, wCfg,
      State.initial, spy, gdAppend, sliceLast, takeLast, listMean,
      rollingMeanLast, optGT, optLE, biased, longBiasedAvg, shortAvg,
      bearishSignal, bullishSignal, ceil_250_3]
  · exact golden_unreachable_state.2 ⟨1, 1, 15, 45⟩
      ⟨[], [], false, true, none, 0, none⟩ ⟨10, spy, "iex"⟩ ⟨10, 0⟩ []
      rfl rfl (by decide) (by decide)

end GoldenDeathStrategy

/-- C4: in either strategy, `onTrade` emits a BUY only when the external
open-order query for the trade's instrument returned the empty set, so a
BUY intent is never emitted while any order already exists. -/
theorem no_buy_while_orders_open :
    (∀ (cfg : GoldenDeathStrategy.Config) (s : GoldenDeathStrategy.State)
        (t : TradeEv) (now : Clock) (oo : List Order)
        (s2 : GoldenDeathStrategy.State) (em : List Order) (o : Order),
        GoldenDeathStrategy.onTrade cfg s t now oo = .ok (s2, em) →
        o ∈ em → o.side = Side.BUY → oo = []) ∧
    (∀ (s : SellPlusPercentStrategy.State) (t : TradeEv) (oo : List Order)
        (n : ℕ) (s2 : SellPlusPercentStrategy.State) (em : List Order) (o : Order),
        SellPlusPercentStrategy.onTrade s t oo n = (s2, em) →
        o ∈ em → o.side = Side.BUY → oo = []) := by
  constructor
  · intro cfg s t now oo s2 em o h hmem hside
    obtain ⟨_, _, hc⟩ := GoldenDeathStrategy.onTrade_ok_cases h
    rcases hc with ⟨hem, _⟩ | ⟨o2, hem, hs2, _, _, hoo, _⟩ | ⟨o2, hem, hs2, _⟩
    · rw [hem] at hmem; cases hmem
    · exact hoo
    · rw [hem] at hmem
      rw [List.mem_singleton] at hmem
      rw [hmem, hs2] at hside
      cases hside
  · intro s t oo n s2 em o h hmem hside
    have h2 : (SellPlusPercentStrategy.onTrade s t oo n).2 = em := by rw [h]
    obtain ⟨_, hc⟩ := SellPlusPercentStrategy.onTrade_cases s t oo n
    rw [h2] at hc
    rcases hc with hem | ⟨o2, hem, hs2, _, _, hoo, _⟩ | ⟨o2, b, hem, hs2, _, _, hoo, _⟩
    · rw [hem] at hmem; cases hmem
    · exact hoo
    · rw [hem] at hmem
      rw [List.mem_singleton] at hmem
      rw [hmem, hs2] at hside
      cases hside

/-- Witness for C4: a concrete BUY emission under an empty open-order
query in each strategy. -/
theorem no_buy_while_orders_open_witness :
    GoldenDeathStrategy.onTrade GoldenDeathStrategy.wCfg
      ⟨[10], [10], true, false, none, 0, none⟩ ⟨11, spy, "iex"⟩ ⟨10, 0⟩ [] =
      .ok (⟨[10, 11], [11], true, false,
        some (GoldenDeathStrategy.buyIntent ⟨11, spy, "iex"⟩),
        (GoldenDeathStrategy.buyIntent ⟨11, spy, "iex"⟩).volume, none⟩,
        [GoldenDeathStrategy.buyIntent ⟨11, spy, "iex"⟩]) ∧
    ([] : List Order) = [] := by
  have h : GoldenDeathStrategy.onTrade GoldenDeathStrategy.wCfg
      ⟨[10], [10], true, false, none, 0, none⟩ ⟨11, spy, "iex"⟩ ⟨10, 0⟩ [] =
      .ok (⟨[10, 11], [11], true, false,
        some (GoldenDeathStrategy.buyIntent ⟨11, spy, "iex"⟩),
        (GoldenDeathStrategy.buyIntent ⟨11, spy, "iex"⟩).volume, none⟩,
        [GoldenDeathStrategy.buyIntent ⟨11, spy, "iex"⟩]) := by
    norm_num [GoldenDeathStrategy.onTrade, GoldenDeathStrategy.wCfg,
      GoldenDeathStrategy.buyIntent, GoldenDeathStrategy.gdAppend, sliceLast,
      takeLast, listMean, rollingMeanLast, optGT, optLE, biased,
      GoldenDeathStrategy.longBiasedAvg, GoldenDeathStrategy.shortAvg,
      GoldenDeathStrategy.bearishSignal, GoldenDeathStrategy.bullishSignal]
  exact ⟨h, no_buy_while_orders_open.1 GoldenDeathStrategy.wCfg
      ⟨[10], [10], true, false, none, 0, none⟩ ⟨11, spy, "iex"⟩ ⟨10, 0⟩ []
      ⟨[10, 11], [11], true, false,
        some (GoldenDeathStrategy.buyIntent ⟨11, spy, "iex"⟩),
        (GoldenDeathStrategy.buyIntent ⟨11, spy, "iex"⟩).volume, none⟩
      [GoldenDeathStrategy.buyIntent ⟨11, spy, "iex"⟩]
      (GoldenDeathStrategy.buyIntent ⟨11, spy, "iex"⟩)
      h (List.mem_singleton_self _) rfl⟩

namespace GoldenDeathStrategy

/-- C6: along every run from the initial state, every emitted BUY order
has volume `ceil(1000 / trade_price)`, and every emitted SELL order's
volume equals the volume recorded at the most recent BUY (the position is
exited fully flat, with no partial exits). -/
theorem volume_conservation (cfg : Config) (evs : List Ev) (s2 : State)
    (tr : List Order) (hrun : run cfg State.initial evs = .ok (s2, tr)) :
    (∀ o ∈ tr, o.side = Side.BUY →
      o.volume = ((⌈(1000 : ℚ) / o.price⌉ : ℤ) : ℚ)) ∧
    sellVolumesMatch none tr = true := by
  have hV : VolInv State.initial none := by
    intro hx
    rcases hx with hx | hx
    · exact absurd hx (by simp [State.initial])
    · exact absurd hx (by simp [State.initial])
  have h := run_sellVolumes cfg evs State.initial none s2 tr hV hrun
  exact ⟨h.2, h.1⟩

/-- Witness for C6: a concrete run with one BUY and one SELL. -/
theorem volume_conservation_witness :
    sellVolumesMatch none [wBuy, wSell] = true := by
  have hrun : run wCfg State.initial wEvsExit =
      .ok (⟨[12, 9], [9], true, true, none, 84, some wSell⟩, [wBuy, wSell]) := by
    norm_num [run, onTrade, onTraded, wEvsExit, wEvs, wBuy, wSell, buyIntent,
      sellIntent, wCfg, State.initial, spy, gdAppend, sliceLast, takeLast,
      listMean, rollingMeanLast, optGT, optLE, biased, longBiasedAvg, shortAvg,
      bearishSignal, bullishSignal, ceil_250_3]
  exact (volume_conservation wCfg wEvsExit
    ⟨[12, 9], [9], true, true, none, 84, some wSell⟩ [wBuy, wSell] hrun).2

end GoldenDeathStrategy

/-- C7: for every sequence of appended prices, the rolling window built by
`onTrade`'s update step (`gdAppend`) has length at most the configured
size and holds exactly the most recently appended prices in arrival order
(oldest evicted first); `onTrade` always updates both windows this way. -/
theorem window_bound (n : ℕ) (hn : 0 < n) (ps : List ℚ) :
    ps.foldl (GoldenDeathStrategy.gdAppend n) [] = takeLast n ps ∧
    (ps.foldl (GoldenDeathStrategy.gdAppend n) []).length ≤ n ∧
    (∀ (cfg : GoldenDeathStrategy.Config) (s : GoldenDeathStrategy.State)
        (t : TradeEv) (now : Clock) (oo : List Order)
        (s2 : GoldenDeathStrategy.State) (em : List Order),
      GoldenDeathStrategy.onTrade cfg s t now oo = .ok (s2, em) →
      s2.long_ma_list = GoldenDeathStrategy.gdAppend cfg.long_ma s.long_ma_list t.price ∧
      s2.short_ma_list = GoldenDeathStrategy.gdAppend cfg.short_ma s.short_ma_list t.price) := by
  have h1 : ps.foldl (GoldenDeathStrategy.gdAppend n) [] = takeLast n ps := by
    have h0 := foldl_gdAppend n hn ps []
    rw [takeLast_nil] at h0
    rw [h0]
    rfl
  refine ⟨h1, ?_, ?_⟩
  · rw [h1]
    exact takeLast_length_le n ps
  · intro cfg s t now oo s2 em h
    obtain ⟨hL, hS, _⟩ := GoldenDeathStrategy.onTrade_ok_cases h
    exact ⟨hL, hS⟩

/-- Witness for C7 at size 2 and prices [1, 2, 3]. -/
theorem window_bound_witness :
    ([1, 2, 3] : List ℚ).foldl (GoldenDeathStrategy.gdAppend 2) [] =
      takeLast 2 [1, 2, 3] ∧
    (([1, 2, 3] : List ℚ).foldl (GoldenDeathStrategy.gdAppend 2) []).length ≤ 2 :=
  ⟨(window_bound 2 (by decide) [1, 2, 3]).1,
   (window_bound 2 (by decide) [1, 2, 3]).2.1⟩

/-- C8: in either strategy, `onRejected` terminates the process, so the
rest of the event tape is never processed and no further order is emitted;
processing the rejection itself emits nothing. -/
theorem rejection_halts :
    (∀ (cfg : GoldenDeathStrategy.Config) (s : GoldenDeathStrategy.State)
        (evs1 evs2 : List GoldenDeathStrategy.Ev),
        GoldenDeathStrategy.run cfg s
            (evs1 ++ GoldenDeathStrategy.Ev.rejected :: evs2) =
          GoldenDeathStrategy.run cfg s evs1) ∧
    (∀ (cfg : GoldenDeathStrategy.Config) (s : GoldenDeathStrategy.State),
        GoldenDeathStrategy.run cfg s [GoldenDeathStrategy.Ev.rejected] =
          .ok (s, [])) ∧
    (∀ (cfg : SellPlusPercentStrategy.Config) (s : SellPlusPercentStrategy.State)
        (evs1 evs2 : List SellPlusPercentStrategy.Ev),
        SellPlusPercentStrategy.run cfg s
            (evs1 ++ SellPlusPercentStrategy.Ev.rejected :: evs2) =
          SellPlusPercentStrategy.run cfg s evs1) ∧
    (∀ (cfg : SellPlusPercentStrategy.Config) (s : SellPlusPercentStrategy.State),
        SellPlusPercentStrategy.run cfg s [SellPlusPercentStrategy.Ev.rejected] =
          .ok (s, [])) :=
  ⟨fun cfg s evs1 evs2 => GoldenDeathStrategy.run_stops_at_rejected cfg evs1 evs2 s,
   fun _ _ => rfl,
   fun cfg s evs1 evs2 => SellPlusPercentStrategy.halts_at_rejected cfg evs1 evs2 s,
   fun _ _ => rfl⟩

/-- C10: in the percent-band strategy, `onTrade` emits a BUY only while
the instrument has zero recorded past trades and a SELL only while it has
exactly one, so once two fills are recorded it never emits another order
for that instrument. -/
theorem single_cycle_guards (s : SellPlusPercentStrategy.State) (t : TradeEv)
    (oo : List Order) (n : ℕ) (s2 : SellPlusPercentStrategy.State)
    (em : List Order)
    (h : SellPlusPercentStrategy.onTrade s t oo n = (s2, em)) :
    (∀ o ∈ em, o.side = Side.BUY → n = 0) ∧
    (∀ o ∈ em, o.side = Side.SELL → n = 1) ∧
    (2 ≤ n → em = []) := by
  have h2 : (SellPlusPercentStrategy.onTrade s t oo n).2 = em := by rw [h]
  obtain ⟨_, hc⟩ := SellPlusPercentStrategy.onTrade_cases s t oo n
  rw [h2] at hc
  rcases hc with hem | ⟨o2, hem, hside2, _, _, _, hn0⟩ |
    ⟨o2, b, hem, hside2, _, _, _, hn1⟩
  · refine ⟨?_, ?_, fun _ => hem⟩
    · intro o hmem _
      rw [hem] at hmem
      cases hmem
    · intro o hmem _
      rw [hem] at hmem
      cases hmem
  · refine ⟨fun o _ _ => hn0, ?_, ?_⟩
    · intro o hmem hside
      rw [hem, List.mem_singleton] at hmem
      rw [hmem, hside2] at hside
      cases hside
    · intro hge
      omega
  · refine ⟨?_, fun o _ _ => hn1, ?_⟩
    · intro o hmem hside
      rw [hem, List.mem_singleton] at hmem
      rw [hmem, hside2] at hside
      cases hside
    · intro hge
      omega

/-- Witness for C10: with two past trades recorded, the percent-band
strategy emits nothing. -/
theorem single_cycle_guards_witness :
    SellPlusPercentStrategy.onTrade SellPlusPercentStrategy.State.initial
      ⟨10, spy, "iex"⟩ [] 2 = (SellPlusPercentStrategy.State.initial, []) ∧
    ([] : List Order) = [] :=
  ⟨rfl, (single_cycle_guards SellPlusPercentStrategy.State.initial
    ⟨10, spy, "iex"⟩ [] 2 SellPlusPercentStrategy.State.initial [] rfl).2.2
    (by omega)⟩

namespace GoldenDeathStrategy

/-- C2 counterexample: with the code's fixed 0.5% bias, running the
concrete scenario prices [10, 10, 10, 9, 8] (long=3, short=2, outside the
warm-up, empty open-order query) emits no order at all, and the reading
after the 5th price is not BULLISH: biased long average 9.045 > short
average 8.5.  This contradicts the claim that a BUY with volume 125 is
emitted after the 5th price. -/
theorem golden_concrete_scenario_cex :
    runTrace c2Cfg State.initial c2Evs = some [] ∧
    runState c2Cfg State.initial c2Evs =
      some ⟨[10, 9, 8], [9, 8], true, false, none, 0, none⟩ ∧
    bullishSignal c2Cfg [10, 9, 8] [9, 8] = false := by
  have hrun : run c2Cfg State.initial c2Evs =
      .ok (⟨[10, 9, 8], [9, 8], true, false, none, 0, none⟩, []) := by
    norm_num [run, onTrade, c2Evs, c2Ev, c2Cfg, State.initial, spy, gdAppend,
      sliceLast, takeLast, listMean, rollingMeanLast, optGT, optLE, biased,
      longBiasedAvg, shortAvg, bearishSignal, bullishSignal]
  refine ⟨?_, ?_, ?_⟩
  · rw [runTrace, hrun]
  · rw [runState, hrun]
  · norm_num [c2Cfg, listMean, rollingMeanLast, optGT, optLE, biased,
      longBiasedAvg, shortAvg, bullishSignal, takeLast]

/-- C2 amended: with the code's fixed 0.5% bias (the bias is not
configurable) and prices [10, 10, 10, 9, 8]: after the 3rd price the long
window is full with long_avg=10, biased to 10.05 > short_avg=10, so the
reading is BEARISH and the strategy arms; after the 5th price
long_avg=9.0, biased to 9.045 > short_avg=8.5, still BEARISH, so no BUY is
ever emitted and the whole run emits no orders. -/
theorem golden_concrete_scenario_amended :
    runState c2Cfg State.initial (c2Evs.take 3) =
      some ⟨[10, 10, 10], [10, 10], true, false, none, 0, none⟩ ∧
    bearishSignal c2Cfg [10, 10, 10] [10, 10] = true ∧
    runTrace c2Cfg State.initial c2Evs = some [] ∧
    bearishSignal c2Cfg [10, 9, 8] [9, 8] = true := by
  have hrun3 : run c2Cfg State.initial (c2Evs.take 3) =
      .ok (⟨[10, 10, 10], [10, 10], true, false, none, 0, none⟩, []) := by
    norm_num [run, onTrade, c2Evs, c2Ev, c2Cfg, State.initial, spy, gdAppend,
      sliceLast, takeLast, listMean, rollingMeanLast, optGT, optLE, biased,
      longBiasedAvg, shortAvg, bearishSignal, bullishSignal]
  have hrun : run c2Cfg State.initial c2Evs =
      .ok (⟨[10, 9, 8], [9, 8], true, false, none, 0, none⟩, []) := by
    norm_num [run, onTrade, c2Evs, c2Ev, c2Cfg, State.initial, spy, gdAppend,
      sliceLast, takeLast, listMean, rollingMeanLast, optGT, optLE, biased,
      longBiasedAvg, shortAvg, bearishSignal, bullishSignal]
  refine ⟨?_, ?_, ?_, ?_⟩
  · rw [runState, hrun3]
  · norm_num [c2Cfg, listMean, rollingMeanLast, optGT, optLE, biased,
      longBiasedAvg, shortAvg, bearishSignal, takeLast]
  · rw [runTrace, hrun]
  · norm_num [c2Cfg, listMean, rollingMeanLast, optGT, optLE, biased,
      longBiasedAvg, shortAvg, bearishSignal, takeLast]

/-- C9 counterexample: with bail configured at 15:45, a clock reading of
16:00 is past the threshold, the strategy is in position with a
non-bearish reading and no pending sell, yet `onTrade` emits nothing,
because the code requires `hour == bail_hour` exactly. -/
theorem bail_hour_cex :
    bearishSignal wCfg [10, 11] [11] = false ∧
    onTrade wCfg ⟨[10], [10], true, true, none, 91, none⟩ ⟨11, spy, "iex"⟩
        ⟨16, 0⟩ [] =
      .ok (⟨[10, 11], [11], true, true, none, 91, none⟩, []) ∧
    wCfg.bail_hour < 16 := by
  refine ⟨?_, ?_, by decide⟩
  · norm_num [wCfg, listMean, rollingMeanLast, optGT, optLE, biased,
      longBiasedAvg, shortAvg, bearishSignal, takeLast]
  · norm_num [onTrade, wCfg, gdAppend, sliceLast, takeLast, listMean,
      rollingMeanLast, optGT, optLE, biased, longBiasedAvg, shortAvg,
      bearishSignal, bullishSignal]

/-- C9 amended: in position with a non-bearish reading (full window,
outside the warm-up), the time-based bail emits exactly one SELL intent at
every clock time whose hour equals the configured bail hour and whose
minute is at or past the bail minute; and it fires at most once per
position, because an existing pending sell intent blocks any emission. -/
theorem bail_exit_amended (cfg : Config) (s : State) (t : TradeEv)
    (now : Clock) (oo : List Order)
    (hlen : ¬ (gdAppend cfg.long_ma s.long_ma_list t.price).length < cfg.long_ma)
    (hwarm : ¬ (now.hour = 9 ∧ now.minute ≤ 45))
    (hent : s.entered = true) (htrig : s.triggered = true)
    (hsig : bearishSignal cfg (gdAppend cfg.long_ma s.long_ma_list t.price)
      (gdAppend cfg.short_ma s.short_ma_list t.price) = false) :
    (s.sell_order = none → now.hour = cfg.bail_hour →
      cfg.bail_minute ≤ now.minute →
      onTrade cfg s t now oo =
        .ok ({ s with
            long_ma_list := gdAppend cfg.long_ma s.long_ma_list t.price
            short_ma_list := gdAppend cfg.short_ma s.short_ma_list t.price
            sell_order := some (sellIntent t s.volume) },
          [sellIntent t s.volume]) ∧
      (sellIntent t s.volume).side = Side.SELL ∧
      (sellIntent t s.volume).volume = s.volume) ∧
    (∀ o2, s.sell_order = some o2 →
      onTrade cfg s t now oo =
        .ok ({ s with
            long_ma_list := gdAppend cfg.long_ma s.long_ma_list t.price
            short_ma_list := gdAppend cfg.short_ma s.short_ma_list t.price },
          [])) := by
  constructor
  · intro hsell hhour hmin
    refine ⟨?_, rfl, rfl⟩
    simp [onTrade, if_neg hlen, if_neg hwarm, hent, htrig, hsig, hsell]
    rw [if_pos (⟨hhour, hmin⟩ :
      now.hour = cfg.bail_hour ∧ cfg.bail_minute ≤ now.minute)]
    simp [sellIntent]
  · intro o2 hsell
    simp [onTrade, if_neg hlen, if_neg hwarm, hent, htrig, hsig, hsell]

/-- Witness for C9 (amended): the bail fires at exactly 15:45 for a 15:45
configuration. -/
theorem bail_exit_amended_witness :
    onTrade wCfg ⟨[10], [10], true, true, none, 91, none⟩ ⟨11, spy, "iex"⟩
        ⟨15, 45⟩ [] =
      .ok (⟨[10, 11], [11], true, true, none, 91,
          some (sellIntent ⟨11, spy, "iex"⟩ 91)⟩,
        [sellIntent ⟨11, spy, "iex"⟩ 91]) ∧
    (sellIntent ⟨11, spy, "iex"⟩ 91).side = Side.SELL := by
  have h := (bail_exit_amended wCfg ⟨[10], [10], true, true, none, 91, none⟩
      ⟨11, spy, "iex"⟩ ⟨15, 45⟩ [] (by decide) (by decide) rfl rfl
      (by norm_num [wCfg, gdAppend, sliceLast, takeLast, listMean,
        rollingMeanLast, optGT, optLE, biased, longBiasedAvg, shortAvg,
        bearishSignal])).1 rfl rfl (by decide)
  exact ⟨h.1, h.2.1⟩

end GoldenDeathStrategy

namespace SellPlusPercentStrategy

/-- C5: over every rejection-free successful run, a StopBand entry exists
for an instrument iff a buy fill has occurred for it with no subsequent
sell fill; `onBought` records
`(fill_price * up_percent, fill_price * down_percent, fill_volume)` and
`onSold` deletes the entry. -/
theorem band_lifecycle :
    (∀ (cfg : Config) (evs : List Ev) (s2 : State) (tr : List Order),
        (∀ e ∈ evs, e ≠ Ev.rejected) →
        run cfg State.initial evs = .ok (s2, tr) →
        ∀ ins, (s2.stop ins).isSome = bandExpected evs ins) ∧
    (∀ (cfg : Config) (s : State) (t : FillEv),
        (onBought cfg s t).stop t.instrument =
          some ⟨t.price * up_percent cfg, t.price * down_percent cfg,
            t.volume⟩) ∧
    (∀ (s : State) (t : FillEv) (s2 : State),
        onSold s t = .ok s2 → s2.stop t.instrument = none) := by
  refine ⟨?_, ?_, ?_⟩
  · intro cfg evs s2 tr hnr hrun ins
    have h := run_band cfg evs State.initial s2 tr hnr hrun ins
    rw [h]
    rfl
  · intro cfg s t
    simp [onBought]
  · intro s t s2 h
    unfold onSold at h
    cases hb : s.stop t.instrument with
    | none => rw [hb] at h; cases h
    | some b =>
      rw [hb] at h
      simp only [Except.ok.injEq] at h
      rw [← h]
      simp

/-- Witness for C5: a single buy fill creates exactly the expected band. -/
theorem band_lifecycle_witness :
    ((onBought ⟨10⟩ State.initial ⟨10, 5, spy, "iex"⟩).stop spy).isSome =
      bandExpected [Ev.bought ⟨10, 5, spy, "iex"⟩] spy ∧
    (onBought ⟨10⟩ State.initial ⟨10, 5, spy, "iex"⟩).stop spy =
      some ⟨10 * up_percent ⟨10⟩, 10 * down_percent ⟨10⟩, 5⟩ := by
  constructor
  · exact band_lifecycle.1 ⟨10⟩ [Ev.bought ⟨10, 5, spy, "iex"⟩]
      (onBought ⟨10⟩ State.initial ⟨10, 5, spy, "iex"⟩) []
      (by intro e he
          rw [List.mem_singleton] at he
          subst he
          intro hx
          cases hx)
      rfl spy
  · exact band_lifecycle.2.1 ⟨10⟩ State.initial ⟨10, 5, spy, "iex"⟩

end SellPlusPercentStrategy

end AAT
